import Mathlib

/-!
Shallow embedding of `src/terrarium.ts` (the terrarium genetic-algorithm
engine) and verification of its specification.

Modelling conventions:
* JS `number` values used as counters/sizes are modelled by `Nat`;
  fitness values (arbitrary user numbers, compared by the sort comparator)
  are modelled by `Rat`; `mutationChance` (never read by the engine) by `Rat`.
* The user-supplied callbacks are gathered in a `Callbacks` record.
  `createOrganism` takes no arguments in the source and may be randomized;
  the n-th call overall is modelled as `createOrganism n`, with the engine
  state carrying the running call counter `createCalls`.
  `stepFunction` receives `this.model` by reference and may mutate it, so it
  is embedded as a function `GeneticAlgorithmModel → GeneticAlgorithmModel`.
* `Array.prototype.sort` with the comparator
  `(a, b) => calculateFitness b - calculateFitness a` is, per the ECMAScript
  specification, a stable sort consistent with that comparator; it is
  embedded as `List.mergeSort` with the boolean relation
  `calculateFitness b ≤ calculateFitness a` (descending fitness, stable).
* The host scheduler queue (`requestAnimationFrame` callbacks) is embedded
  as the field `pending : List Nat` of the engine state: one entry per
  scheduled-but-not-yet-fired tick, carrying the delay it was scheduled
  with.  Firing a tick removes the head entry and runs `step`.
-/

set_option linter.unusedVariables false

namespace Terrarium

/-- Embedding of the source interface `Organism`: a member of the
population, with an opaque genetic payload `genes : G` and a
`mutationChance` the engine itself never reads. -/
structure Organism (G : Type) where
  genes : G
  mutationChance : Rat
deriving DecidableEq

instance {G : Type} [Inhabited G] : Inhabited (Organism G) :=
  ⟨{ genes := default, mutationChance := 0 }⟩

/-- Embedding of the source interface `GeneticAlgorithmModel`: the state of
the genetic algorithm at any given moment. -/
structure GeneticAlgorithmModel (G : Type) where
  populationSize : Nat
  generation : Nat
  population : List (Organism G)
deriving DecidableEq

/-- The user-supplied callbacks handed to the `GeneticAlgorithm`
constructor.  `createOrganism n` is the value returned by the n-th call of
the zero-argument source callback; `produceNextGeneration` is the
(possibly custom) reproduction strategy. -/
structure Callbacks (G : Type) where
  createOrganism : Nat → Organism G
  stepFunction : GeneticAlgorithmModel G → GeneticAlgorithmModel G
  calculateFitness : Organism G → Rat
  crossover : Organism G → Organism G → Organism G
  mutate : Organism G → Organism G
  shouldTerminate : GeneticAlgorithmModel G → Bool
  shouldProgressGeneration : GeneticAlgorithmModel G → Bool
  produceNextGeneration : GeneticAlgorithmModel G → GeneticAlgorithmModel G

variable {G : Type}

/-- Embedding of `newModel.population.sort((a, b) => calculateFitness(b) -
calculateFitness(a))`: a stable sort of the population in descending order
of `calculateFitness`. -/
def sortByFitnessDesc (calculateFitness : Organism G → Rat)
    (population : List (Organism G)) : List (Organism G) :=
  population.mergeSort (fun a b => decide (calculateFitness b ≤ calculateFitness a))

/-- Embedding of the default value of the constructor parameter
`produceNextGeneration` in `src/terrarium.ts` (lines 161-185):
clone the model, increment `generation`, sort the cloned population by
descending fitness, take the top two organisms as the parents, rebuild the
population with `populationSize` crossover calls, then mutate every
element in index order.  `structuredClone` is a deep copy, so in this
value-level embedding it is the identity; out-of-range JS indexing
(`sortedPopulation[0]` on a population shorter than 2) is embedded with
`List.getD` and the default organism. -/
def defaultProduceNextGeneration [Inhabited G] (cb : Callbacks G)
    (model : GeneticAlgorithmModel G) : GeneticAlgorithmModel G :=
  let sortedPopulation := sortByFitnessDesc cb.calculateFitness model.population
  let parentA := sortedPopulation.getD 0 default
  let parentB := sortedPopulation.getD 1 default
  { populationSize := model.populationSize
    generation := model.generation + 1
    population :=
      (List.replicate model.populationSize (cb.crossover parentA parentB)).map cb.mutate }

/-- The state of one `GeneticAlgorithm` instance together with the host
scheduler queue.

`frameDelay` and the delay entries of `pending` are Modelled from the spec:
the engine version under `src/` schedules through the host animation-frame
primitive with no explicit delay parameter, while the spec (§4.1, §5) and
both bundled callers give the constructor a frame-delay argument that each
scheduled tick honours. -/
structure GeneticAlgorithm (G : Type) where
  model : GeneticAlgorithmModel G
  isRunning : Bool
  pending : List Nat
  createCalls : Nat
  frameDelay : Nat
deriving DecidableEq

namespace GeneticAlgorithm

/-- Embedding of `next()` (`src/terrarium.ts` lines 262-266): enqueue one
step callback in the host scheduler, to fire after the configured frame
delay. -/
def next (e : GeneticAlgorithm G) : GeneticAlgorithm G :=
  { e with pending := e.pending ++ [e.frameDelay] }

/-- Embedding of the constructor (`src/terrarium.ts` lines 150-219): build
the model with `generation = 0` and an initially empty population, set
`isRunning := false`, then push `createOrganism()` results until the
population has `populationSize` members.  The frame-delay parameter is
Modelled from the spec (§4.1); the constructor does not schedule a tick. -/
def make (cb : Callbacks G) (populationSize : Nat) (frameDelay : Nat) :
    GeneticAlgorithm G :=
  { model :=
      { populationSize := populationSize
        generation := 0
        population := (List.range populationSize).map cb.createOrganism }
    isRunning := false
    pending := []
    createCalls := populationSize
    frameDelay := frameDelay }

/-- Embedding of `step()` (`src/terrarium.ts` lines 229-251): terminate if
`shouldTerminate`, early-return when not running, advance the generation
when `shouldProgressGeneration`, then run the per-frame hook and schedule
the next tick. -/
def step (cb : Callbacks G) (e : GeneticAlgorithm G) : GeneticAlgorithm G :=
  let e1 := if cb.shouldTerminate e.model then { e with isRunning := false } else e
  if e1.isRunning = false then
    e1
  else
    let e2 :=
      if cb.shouldProgressGeneration e1.model then
        { e1 with model := cb.produceNextGeneration e1.model }
      else e1
    if e2.isRunning then
      next { e2 with model := cb.stepFunction e2.model }
    else e2

/-- Firing of one scheduled tick: the host removes the callback from its
queue and runs `step`. -/
def fireTick (cb : Callbacks G) (e : GeneticAlgorithm G) : GeneticAlgorithm G :=
  step cb { e with pending := e.pending.tail }

/-- Embedding of `play()` (`src/terrarium.ts` lines 274-278): set
`isRunning := true` and schedule one step. -/
def play (e : GeneticAlgorithm G) : GeneticAlgorithm G :=
  next { e with isRunning := true }

/-- Embedding of `pause()` (`src/terrarium.ts` lines 280-282): set
`isRunning := false`; an already-scheduled tick stays in the queue. -/
def pause (e : GeneticAlgorithm G) : GeneticAlgorithm G :=
  { e with isRunning := false }

/-- Modelled from the spec: `reset()` is invoked by both bundled callers
and described in §4.1, but the engine version under `src/` does not contain
it.  Per the spec it returns the Model to its just-constructed form —
`generation = 0` and a freshly created population of `populationSize` new
`createOrganism()` results — regardless of run state, and does not itself
change `isRunning`. -/
def reset (cb : Callbacks G) (e : GeneticAlgorithm G) : GeneticAlgorithm G :=
  { e with
    model :=
      { populationSize := e.model.populationSize
        generation := 0
        population :=
          (List.range e.model.populationSize).map
            (fun i => cb.createOrganism (e.createCalls + i)) }
    createCalls := e.createCalls + e.model.populationSize }

end GeneticAlgorithm

/-- Engine states reachable from construction under any interleaving of
the control interface and the host scheduler: `play()` calls, `pause()`
calls, and firings of a scheduled tick (only possible while a tick is
actually queued). -/
inductive Reachable (cb : Callbacks G) (populationSize frameDelay : Nat) :
    GeneticAlgorithm G → Prop
  | start : Reachable cb populationSize frameDelay
      (GeneticAlgorithm.make cb populationSize frameDelay)
  | play {e : GeneticAlgorithm G} :
      Reachable cb populationSize frameDelay e →
      Reachable cb populationSize frameDelay e.play
  | pause {e : GeneticAlgorithm G} :
      Reachable cb populationSize frameDelay e →
      Reachable cb populationSize frameDelay e.pause
  | fire {e : GeneticAlgorithm G} :
      Reachable cb populationSize frameDelay e → e.pending ≠ [] →
      Reachable cb populationSize frameDelay (GeneticAlgorithm.fireTick cb e)

/-- Engine states reachable when the caller is disciplined about `play()`:
as in `Reachable`, except `play()` is only invoked while no tick is
pending (the spec files calling `play()` twice in a row under logical
misuse with unspecified behaviour). -/
inductive DisciplinedReachable (cb : Callbacks G)
    (populationSize frameDelay : Nat) : GeneticAlgorithm G → Prop
  | start : DisciplinedReachable cb populationSize frameDelay
      (GeneticAlgorithm.make cb populationSize frameDelay)
  | play {e : GeneticAlgorithm G} :
      DisciplinedReachable cb populationSize frameDelay e → e.pending = [] →
      DisciplinedReachable cb populationSize frameDelay e.play
  | pause {e : GeneticAlgorithm G} :
      DisciplinedReachable cb populationSize frameDelay e →
      DisciplinedReachable cb populationSize frameDelay e.pause
  | fire {e : GeneticAlgorithm G} :
      DisciplinedReachable cb populationSize frameDelay e → e.pending ≠ [] →
      DisciplinedReachable cb populationSize frameDelay
        (GeneticAlgorithm.fireTick cb e)

/-!
Concrete instances used to evaluate the theorems on closed inputs.
-/

/-- A concrete callback record over `G := Nat`: fitness is the gene value,
crossover keeps its first parent, mutation is the identity, the run never
terminates and every tick advances the generation (as in both bundled
examples). -/
def demoCallbacks : Callbacks Nat where
  createOrganism := fun n => { genes := n, mutationChance := 0 }
  stepFunction := id
  calculateFitness := fun o => (o.genes : Rat)
  crossover := fun a _ => a
  mutate := id
  shouldTerminate := fun _ => false
  shouldProgressGeneration := fun _ => true
  produceNextGeneration := id

/-- `demoCallbacks` with a termination predicate that always answers
yes. -/
def haltingCallbacks : Callbacks Nat :=
  { demoCallbacks with shouldTerminate := fun _ => true }

/-- A concrete three-organism model over `G := Nat`. -/
def demoModel : GeneticAlgorithmModel Nat :=
  { populationSize := 3
    generation := 0
    population :=
      [ { genes := 1, mutationChance := 0 }
      , { genes := 5, mutationChance := 0 }
      , { genes := 2, mutationChance := 0 } ] }

/-!
Address-level embedding of the default reproduction strategy, used to state
the aliasing claim: organisms live in a heap of numbered cells, a model's
population is a list of cell addresses, and `structuredClone`, `crossover`
and the in-place mutation loop are explicit about which cells they allocate
and write.
-/

/-- A heap of organism cells: `mem` gives the contents of each address,
`fresh` is the next never-used address. -/
structure Heap (G : Type) where
  mem : Nat → Organism G
  fresh : Nat

/-- Overwrite the contents of one cell. -/
def Heap.write (h : Heap G) (a : Nat) (v : Organism G) : Heap G :=
  { h with mem := fun x => if x = a then v else h.mem x }

/-- Allocate a fresh cell holding `v`, returning the new heap and the
cell's address. -/
def Heap.alloc (h : Heap G) (v : Organism G) : Heap G × Nat :=
  ({ mem := fun x => if x = h.fresh then v else h.mem x, fresh := h.fresh + 1 },
    h.fresh)

/-- Allocate one fresh cell per value, in order. -/
def Heap.allocList (h : Heap G) : List (Organism G) → Heap G × List Nat
  | [] => (h, [])
  | v :: vs =>
    let p := h.alloc v
    let q := p.1.allocList vs
    (q.1, p.2 :: q.2)

/-- A `GeneticAlgorithmModel` whose population is a list of heap
addresses rather than organism values. -/
structure RefModel where
  populationSize : Nat
  generation : Nat
  population : List Nat

/-- Address-level embedding of the default `produceNextGeneration`
(`src/terrarium.ts` lines 161-185).  `structuredClone(model)` deep-copies
every organism into fresh cells; the in-place `sort` permutes the cloned
address array; each `crossover` call returns a new organism (per the
callback contract) and so allocates a fresh cell; the mutation loop writes
`mutate(population[i])` back into slot `i`, embedded as updating the
offspring's cell in place. -/
def defaultProduceNextGenerationRef (cb : Callbacks G) (h : Heap G)
    (m : RefModel) : Heap G × RefModel :=
  let cloned := h.allocList (m.population.map h.mem)
  let h1 := cloned.1
  let sortedPopulation := cloned.2.mergeSort
    (fun a b =>
      decide (cb.calculateFitness (h1.mem b) ≤ cb.calculateFitness (h1.mem a)))
  let parentA := h1.mem (sortedPopulation.getD 0 0)
  let parentB := h1.mem (sortedPopulation.getD 1 0)
  let born := h1.allocList
    (List.replicate m.populationSize (cb.crossover parentA parentB))
  let h2 := born.1
  let h3 := born.2.foldl (fun hh a => hh.write a (cb.mutate (hh.mem a))) h2
  (h3,
    { populationSize := m.populationSize
      generation := m.generation + 1
      population := born.2 })

/-- A concrete heap with two used cells. -/
def demoHeap : Heap Nat :=
  { mem := fun n => { genes := n, mutationChance := 0 }, fresh := 2 }

/-- A concrete address-level model whose population occupies the two used
cells of `demoHeap`. -/
def demoRefModel : RefModel :=
  { populationSize := 2, generation := 0, population := [0, 1] }

/-! Heap lemmas. -/

theorem Heap.allocList_fresh (vs : List (Organism G)) (h : Heap G) :
    (h.allocList vs).1.fresh = h.fresh + vs.length := by
  induction vs generalizing h with
  | nil => simp [Heap.allocList]
  | cons v vs ih =>
    simp only [Heap.allocList, Heap.alloc, ih]
    simp
    omega

theorem Heap.allocList_mem_lt (vs : List (Organism G)) (h : Heap G) (a : Nat)
    (ha : a < h.fresh) : (h.allocList vs).1.mem a = h.mem a := by
  induction vs generalizing h with
  | nil => simp [Heap.allocList]
  | cons v vs ih =>
    have hlt : a < h.fresh + 1 := Nat.lt_succ_of_lt ha
    simp only [Heap.allocList, Heap.alloc]
    rw [ih _ hlt]
    simp [Nat.ne_of_lt ha]

theorem Heap.allocList_fresh_le_addr (vs : List (Organism G)) (h : Heap G)
    (a : Nat) (ha : a ∈ (h.allocList vs).2) : h.fresh ≤ a := by
  induction vs generalizing h with
  | nil => simp [Heap.allocList] at ha
  | cons v vs ih =>
    simp only [Heap.allocList, Heap.alloc, List.mem_cons] at ha
    rcases ha with rfl | ha
    · exact Nat.le_refl _
    · exact Nat.le_of_succ_le (ih _ ha)

theorem Heap.foldl_write_mem_ne (f : Heap G → Nat → Organism G)
    (l : List Nat) (h : Heap G) (x : Nat) (hx : ∀ a ∈ l, x ≠ a) :
    (l.foldl (fun hh a => hh.write a (f hh a)) h).mem x = h.mem x := by
  induction l generalizing h with
  | nil => simp
  | cons a l ih =>
    simp only [List.foldl_cons]
    rw [ih _ (fun b hb => hx b (List.mem_cons_of_mem a hb))]
    simp [Heap.write, hx a (List.mem_cons_self a l)]

/-!
Helper lemmas about `step`.
-/

namespace GeneticAlgorithm

theorem step_of_not_running (cb : Callbacks G) (e : GeneticAlgorithm G)
    (h : e.isRunning = false) : step cb e = e := by
  obtain ⟨m, r, p, c, f⟩ := e
  simp only at h
  subst h
  cases hc : cb.shouldTerminate m <;> simp [step, hc]

theorem step_pending_or_schedules (cb : Callbacks G) (e : GeneticAlgorithm G) :
    (step cb e).pending = e.pending ∨
      (step cb e).pending = e.pending ++ [e.frameDelay] := by
  obtain ⟨m, r, p, c, f⟩ := e
  cases hc : cb.shouldTerminate m <;> cases r <;>
    cases hg : cb.shouldProgressGeneration m <;>
    simp [step, next, hc, hg]

theorem fireTick_of_not_running (cb : Callbacks G) (e : GeneticAlgorithm G)
    (h : e.isRunning = false) :
    fireTick cb e = { e with pending := e.pending.tail } := by
  have := step_of_not_running cb { e with pending := e.pending.tail } h
  simpa [fireTick] using this

end GeneticAlgorithm

/-!
Claim theorems.
-/

/-- C1: for every reachable Model — after construction and after every
invocation of the default reproduction strategy — the length of
`model.population` equals `model.populationSize`. -/
theorem population_length_eq_populationSize [Inhabited G] (cb : Callbacks G)
    (populationSize frameDelay : Nat) (m : GeneticAlgorithmModel G) :
    (GeneticAlgorithm.make cb populationSize frameDelay).model.population.length
        = (GeneticAlgorithm.make cb populationSize frameDelay).model.populationSize ∧
    (defaultProduceNextGeneration cb m).populationSize = m.populationSize ∧
    (defaultProduceNextGeneration cb m).population.length
        = (defaultProduceNextGeneration cb m).populationSize := by
  refine ⟨?_, rfl, ?_⟩ <;> simp [GeneticAlgorithm.make, defaultProduceNextGeneration]

/-- C2: `model.generation` starts at 0 at construction, and the default
reproduction strategy maps a Model with generation N to a Model with
generation exactly N + 1. -/
theorem generation_starts_zero_and_increments [Inhabited G] (cb : Callbacks G)
    (populationSize frameDelay : Nat) (m : GeneticAlgorithmModel G) :
    (GeneticAlgorithm.make cb populationSize frameDelay).model.generation = 0 ∧
    (defaultProduceNextGeneration cb m).generation = m.generation + 1 :=
  ⟨rfl, rfl⟩

/-- C6: `reset()` returns the Model to its just-constructed form —
generation 0 and a freshly created population of length `populationSize`
(the next `populationSize` outputs of `createOrganism`) — in any run
state, without changing `isRunning`. -/
theorem reset_restores_initial_shape (cb : Callbacks G)
    (e : GeneticAlgorithm G) :
    (e.reset cb).model.generation = 0 ∧
    (e.reset cb).model.populationSize = e.model.populationSize ∧
    (e.reset cb).model.population.length = e.model.populationSize ∧
    (e.reset cb).isRunning = e.isRunning ∧
    (e.reset cb).model.population =
      (List.range e.model.populationSize).map
        (fun i => cb.createOrganism (e.createCalls + i)) := by
  refine ⟨rfl, rfl, ?_, rfl, rfl⟩
  simp [GeneticAlgorithm.reset]

/-- C10: `play()` and `pause()` never modify `model` (populationSize,
generation, population all unchanged); only `isRunning` changes. -/
theorem play_pause_preserve_model (e : GeneticAlgorithm G) :
    e.play.model = e.model ∧ e.pause.model = e.model ∧
    e.play.isRunning = true ∧ e.pause.isRunning = false ∧
    e.play.createCalls = e.createCalls ∧ e.pause.createCalls = e.createCalls ∧
    e.play.frameDelay = e.frameDelay ∧ e.pause.frameDelay = e.frameDelay ∧
    e.pause.pending = e.pending :=
  ⟨rfl, rfl, rfl, rfl, rfl, rfl, rfl, rfl, rfl⟩

/-- C4: on any tick where `shouldTerminate(model)` is true at step entry,
`step` sets `isRunning` to false and returns with the model and the
scheduler queue untouched (so neither `produceNextGeneration` nor
`stepFunction` had any effect and no tick was scheduled), and `isRunning`
stays false across any number of further step invocations. -/
theorem terminate_latches (cb : Callbacks G) (e : GeneticAlgorithm G)
    (h : cb.shouldTerminate e.model = true) :
    GeneticAlgorithm.step cb e = { e with isRunning := false } ∧
    ∀ n : Nat, ((GeneticAlgorithm.step cb)^[n]
        (GeneticAlgorithm.step cb e)).isRunning = false := by
  have h1 : GeneticAlgorithm.step cb e = { e with isRunning := false } := by
    simp [GeneticAlgorithm.step, h]
  refine ⟨h1, fun n => ?_⟩
  rw [h1, Function.iterate_fixed (GeneticAlgorithm.step_of_not_running cb _ rfl)]

/-- Evaluation of `terminate_latches` on a concrete running engine whose
termination predicate answers yes. -/
theorem terminate_latches_check :
    haltingCallbacks.shouldTerminate
        (GeneticAlgorithm.make haltingCallbacks 2 5).play.model = true ∧
    GeneticAlgorithm.step haltingCallbacks (GeneticAlgorithm.make haltingCallbacks 2 5).play
        = { (GeneticAlgorithm.make haltingCallbacks 2 5).play with isRunning := false } ∧
    ((GeneticAlgorithm.step haltingCallbacks)^[3]
        (GeneticAlgorithm.step haltingCallbacks
          (GeneticAlgorithm.make haltingCallbacks 2 5).play)).isRunning = false :=
  ⟨rfl,
    (terminate_latches haltingCallbacks (GeneticAlgorithm.make haltingCallbacks 2 5).play rfl).1,
    (terminate_latches haltingCallbacks (GeneticAlgorithm.make haltingCallbacks 2 5).play rfl).2 3⟩

/-- C5: after `pause()` sets `isRunning` to false, any number of
subsequently fired scheduled ticks (with `shouldTerminate` still
answering no) leave the model completely unchanged, keep the engine
paused, and only drain the scheduler queue — they never schedule further
ticks. -/
theorem pause_then_ticks_no_mutation (cb : Callbacks G)
    (e : GeneticAlgorithm G) (h : cb.shouldTerminate e.model = false)
    (n : Nat) :
    ((GeneticAlgorithm.fireTick cb)^[n] e.pause).model = e.model ∧
    ((GeneticAlgorithm.fireTick cb)^[n] e.pause).isRunning = false ∧
    ((GeneticAlgorithm.fireTick cb)^[n] e.pause).pending = e.pending.drop n := by
  have key : ∀ k : Nat, (GeneticAlgorithm.fireTick cb)^[k] e.pause
      = { e with isRunning := false, pending := e.pending.drop k } := by
    intro k
    induction k with
    | zero => simp [GeneticAlgorithm.pause]
    | succ k ih =>
      rw [Function.iterate_succ_apply', ih,
        GeneticAlgorithm.fireTick_of_not_running cb _ rfl]
      simp [List.tail_drop]
  rw [key n]
  exact ⟨rfl, rfl, rfl⟩

/-- Evaluation of `pause_then_ticks_no_mutation` on a concrete engine,
two ticks after the pause. -/
theorem pause_then_ticks_no_mutation_check :
    demoCallbacks.shouldTerminate (GeneticAlgorithm.make demoCallbacks 2 5).play.model = false ∧
    ((GeneticAlgorithm.fireTick demoCallbacks)^[2]
        (GeneticAlgorithm.make demoCallbacks 2 5).play.pause).model
      = (GeneticAlgorithm.make demoCallbacks 2 5).play.model ∧
    ((GeneticAlgorithm.fireTick demoCallbacks)^[2]
        (GeneticAlgorithm.make demoCallbacks 2 5).play.pause).isRunning = false ∧
    ((GeneticAlgorithm.fireTick demoCallbacks)^[2]
        (GeneticAlgorithm.make demoCallbacks 2 5).play.pause).pending
      = (GeneticAlgorithm.make demoCallbacks 2 5).play.pending.drop 2 :=
  ⟨rfl, pause_then_ticks_no_mutation demoCallbacks
    (GeneticAlgorithm.make demoCallbacks 2 5).play rfl 2⟩

/-- C7: the constructor accepts and stores a frame-delay parameter, and a
tick that completes with `isRunning` still true appends exactly one tick
to the scheduler queue, to fire after that configured frame delay. -/
theorem tick_schedules_after_frame_delay (cb : Callbacks G)
    (populationSize frameDelay : Nat) (e : GeneticAlgorithm G)
    (h1 : e.isRunning = true) (h2 : cb.shouldTerminate e.model = false) :
    (GeneticAlgorithm.make cb populationSize frameDelay).frameDelay = frameDelay ∧
    (GeneticAlgorithm.step cb e).pending = e.pending ++ [e.frameDelay] := by
  refine ⟨rfl, ?_⟩
  obtain ⟨m, r, p, c, f⟩ := e
  simp only at h1 h2
  subst h1
  cases hg : cb.shouldProgressGeneration m <;>
    simp [GeneticAlgorithm.step, GeneticAlgorithm.next, h2, hg]

/-- Evaluation of `tick_schedules_after_frame_delay` on a concrete
running engine with frame delay 7. -/
theorem tick_schedules_after_frame_delay_check :
    (GeneticAlgorithm.make demoCallbacks 2 7).play.isRunning = true ∧
    demoCallbacks.shouldTerminate (GeneticAlgorithm.make demoCallbacks 2 7).play.model = false ∧
    (GeneticAlgorithm.make demoCallbacks 2 7).frameDelay = 7 ∧
    (GeneticAlgorithm.step demoCallbacks (GeneticAlgorithm.make demoCallbacks 2 7).play).pending
      = (GeneticAlgorithm.make demoCallbacks 2 7).play.pending
          ++ [(GeneticAlgorithm.make demoCallbacks 2 7).play.frameDelay] :=
  ⟨rfl, rfl, tick_schedules_after_frame_delay demoCallbacks 2 7
    (GeneticAlgorithm.make demoCallbacks 2 7).play rfl rfl⟩

/-- C8 counterexample: from the constructor state, calling `play()` twice
in a row is a legal event sequence, and it leaves two step invocations
pending in the scheduler at once — so "at most one step invocation is ever
pending under any sequence of play(), pause(), and tick firings" is false
on the code. -/
theorem double_play_leaves_two_pending :
    ¬ ∀ e : GeneticAlgorithm Nat,
        Reachable demoCallbacks 1 0 e → e.pending.length ≤ 1 := by
  intro hall
  have hr : Reachable demoCallbacks 1 0
      (GeneticAlgorithm.make demoCallbacks 1 0).play.play :=
    Reachable.play (Reachable.play Reachable.start)
  have h2 := hall _ hr
  simp [GeneticAlgorithm.make, GeneticAlgorithm.play,
    GeneticAlgorithm.next] at h2

/-- C8 amended: under any sequence of play(), pause(), and scheduled tick
firings in which `play()` is only invoked while no tick is pending, at
most one step invocation is pending in the scheduler at a time (a new
tick being enqueued only by the completing tick's synchronous body or by
such a `play()`). -/
theorem at_most_one_pending_tick (cb : Callbacks G)
    (populationSize frameDelay : Nat) (e : GeneticAlgorithm G)
    (h : DisciplinedReachable cb populationSize frameDelay e) :
    e.pending.length ≤ 1 := by
  induction h with
  | start => simp [GeneticAlgorithm.make]
  | play hr hp ih => simp [GeneticAlgorithm.play, GeneticAlgorithm.next, hp]
  | pause hr ih => simpa [GeneticAlgorithm.pause] using ih
  | @fire e1 hr hne ih =>
    rcases GeneticAlgorithm.step_pending_or_schedules cb
        { e1 with pending := e1.pending.tail } with hc | hc <;>
      simp only [GeneticAlgorithm.fireTick, hc, List.length_append,
        List.length_tail, List.length_cons, List.length_nil] <;>
      omega

/-- Evaluation of `at_most_one_pending_tick` on a concrete disciplined
trace: construct, play, fire the scheduled tick. -/
theorem at_most_one_pending_tick_check :
    DisciplinedReachable demoCallbacks 1 0
      (GeneticAlgorithm.fireTick demoCallbacks (GeneticAlgorithm.make demoCallbacks 1 0).play) ∧
    (GeneticAlgorithm.fireTick demoCallbacks
        (GeneticAlgorithm.make demoCallbacks 1 0).play).pending.length ≤ 1 :=
  ⟨DisciplinedReachable.fire (DisciplinedReachable.play DisciplinedReachable.start rfl)
      (by simp [GeneticAlgorithm.make, GeneticAlgorithm.play, GeneticAlgorithm.next]),
    at_most_one_pending_tick demoCallbacks 1 0 _
      (DisciplinedReachable.fire (DisciplinedReachable.play DisciplinedReachable.start rfl)
        (by simp [GeneticAlgorithm.make, GeneticAlgorithm.play, GeneticAlgorithm.next]))⟩

/-! Helper lemmas about `List.getD` and sorted lists. -/

theorem getD_zero_mem {α : Type} (l : List α) (d : α) (h : 0 < l.length) :
    l.getD 0 d ∈ l := by
  cases l with
  | nil => simp at h
  | cons x xs => simp

theorem getD_one_mem {α : Type} (l : List α) (d : α) (h : 1 < l.length) :
    l.getD 1 d ∈ l := by
  match l with
  | [] => simp at h
  | [x] => simp at h
  | x :: y :: xs => simp [List.getD]

theorem pairwise_getD_zero_dominates {α : Type} {R : α → α → Prop}
    (hrefl : ∀ a, R a a) (l : List α) (d : α) (hp : l.Pairwise R)
    (o : α) (ho : o ∈ l) : R (l.getD 0 d) o := by
  cases l with
  | nil => cases ho
  | cons x xs =>
    rcases List.pairwise_cons.1 hp with ⟨hx, _⟩
    rcases List.mem_cons.1 ho with rfl | hmem
    · simpa [List.getD_cons_zero] using hrefl o
    · simpa [List.getD_cons_zero] using hx o hmem

theorem sortByFitnessDesc_perm (calculateFitness : Organism G → Rat)
    (population : List (Organism G)) :
    (sortByFitnessDesc calculateFitness population).Perm population :=
  List.mergeSort_perm population _

theorem sortByFitnessDesc_pairwise (calculateFitness : Organism G → Rat)
    (population : List (Organism G)) :
    (sortByFitnessDesc calculateFitness population).Pairwise
      (fun a b => calculateFitness b ≤ calculateFitness a) := by
  have hs := @List.sorted_mergeSort (Organism G)
    (fun a b => decide (calculateFitness b ≤ calculateFitness a))
    (fun a b c hab hbc => by
      simp only [decide_eq_true_eq] at *
      exact le_trans hbc hab)
    (fun a b => by
      simp only [Bool.or_eq_true, decide_eq_true_eq]
      exact le_total (calculateFitness b) (calculateFitness a))
    population
  exact hs.imp (fun hab => by simpa using hab)

/-- C3: the default reproduction strategy sorts the copied population in
descending order of `calculateFitness` (a permutation of the population,
pairwise descending, with the head of maximal fitness), takes the top two
organisms as `parentA` and `parentB` — members of the original population,
fixed for the whole generation — builds the new population from exactly
`populationSize` `crossover(parentA, parentB)` results, and then applies
`mutate` to every element of the new population in index order. -/
theorem default_strategy_sorts_selects_crosses_mutates [Inhabited G]
    (cb : Callbacks G) (m : GeneticAlgorithmModel G)
    (h2 : 2 ≤ m.population.length) :
    (sortByFitnessDesc cb.calculateFitness m.population).Perm m.population ∧
    (sortByFitnessDesc cb.calculateFitness m.population).Pairwise
      (fun a b => cb.calculateFitness b ≤ cb.calculateFitness a) ∧
    (sortByFitnessDesc cb.calculateFitness m.population).getD 0 default
      ∈ m.population ∧
    (sortByFitnessDesc cb.calculateFitness m.population).getD 1 default
      ∈ m.population ∧
    (∀ o ∈ m.population, cb.calculateFitness o ≤ cb.calculateFitness
      ((sortByFitnessDesc cb.calculateFitness m.population).getD 0 default)) ∧
    (defaultProduceNextGeneration cb m).population =
      (List.replicate m.populationSize
        (cb.crossover
          ((sortByFitnessDesc cb.calculateFitness m.population).getD 0 default)
          ((sortByFitnessDesc cb.calculateFitness m.population).getD 1 default))).map
        cb.mutate := by
  have hperm := sortByFitnessDesc_perm cb.calculateFitness m.population
  have hpair := sortByFitnessDesc_pairwise cb.calculateFitness m.population
  have hlen : (sortByFitnessDesc cb.calculateFitness m.population).length
      = m.population.length := hperm.length_eq
  refine ⟨hperm, hpair, ?_, ?_, ?_, rfl⟩
  · exact hperm.subset (getD_zero_mem _ _ (by omega))
  · exact hperm.subset (getD_one_mem _ _ (by omega))
  · intro o ho
    exact pairwise_getD_zero_dominates
      (R := fun a b => cb.calculateFitness b ≤ cb.calculateFitness a)
      (fun a => le_refl _) _ default hpair o (hperm.mem_iff.mpr ho)

/-- Evaluation of `default_strategy_sorts_selects_crosses_mutates` on the
concrete `demoModel`, with the maximal-fitness fact instantiated at the
gene-5 organism. -/
theorem default_strategy_check :
    2 ≤ demoModel.population.length ∧
    (sortByFitnessDesc demoCallbacks.calculateFitness demoModel.population).Perm
      demoModel.population ∧
    (sortByFitnessDesc demoCallbacks.calculateFitness demoModel.population).Pairwise
      (fun a b => demoCallbacks.calculateFitness b ≤ demoCallbacks.calculateFitness a) ∧
    (sortByFitnessDesc demoCallbacks.calculateFitness demoModel.population).getD 0 default
      ∈ demoModel.population ∧
    (sortByFitnessDesc demoCallbacks.calculateFitness demoModel.population).getD 1 default
      ∈ demoModel.population ∧
    demoCallbacks.calculateFitness { genes := 5, mutationChance := 0 }
      ≤ demoCallbacks.calculateFitness
        ((sortByFitnessDesc demoCallbacks.calculateFitness demoModel.population).getD 0 default) ∧
    (defaultProduceNextGeneration demoCallbacks demoModel).population =
      (List.replicate demoModel.populationSize
        (demoCallbacks.crossover
          ((sortByFitnessDesc demoCallbacks.calculateFitness demoModel.population).getD 0 default)
          ((sortByFitnessDesc demoCallbacks.calculateFitness demoModel.population).getD 1 default))).map
        demoCallbacks.mutate :=
  ⟨by decide,
    (default_strategy_sorts_selects_crosses_mutates demoCallbacks demoModel (by decide)).1,
    (default_strategy_sorts_selects_crosses_mutates demoCallbacks demoModel (by decide)).2.1,
    (default_strategy_sorts_selects_crosses_mutates demoCallbacks demoModel (by decide)).2.2.1,
    (default_strategy_sorts_selects_crosses_mutates demoCallbacks demoModel (by decide)).2.2.2.1,
    (default_strategy_sorts_selects_crosses_mutates demoCallbacks demoModel (by decide)).2.2.2.2.1
      { genes := 5, mutationChance := 0 } (by decide),
    (default_strategy_sorts_selects_crosses_mutates demoCallbacks demoModel (by decide)).2.2.2.2.2⟩

/-- C9: run on a well-formed heap (every population address previously
allocated), the default reproduction strategy leaves the contents of every
input-population cell unchanged — `structuredClone` copies before any
mutation — and the returned Model's population consists exclusively of
cells allocated during the call, so it shares no mutable state with the
input Model. -/
theorem default_strategy_no_aliasing (cb : Callbacks G) (h : Heap G)
    (m : RefModel) (hwf : ∀ a ∈ m.population, a < h.fresh) :
    (∀ a ∈ m.population,
        (defaultProduceNextGenerationRef cb h m).1.mem a = h.mem a) ∧
    (∀ b ∈ (defaultProduceNextGenerationRef cb h m).2.population,
        h.fresh ≤ b ∧ b ∉ m.population) := by
  have hfresh1 : (h.allocList (m.population.map h.mem)).1.fresh
      = h.fresh + m.population.length := by
    rw [Heap.allocList_fresh]
    simp
  constructor
  · intro a ha
    have halt : a < h.fresh := hwf a ha
    simp only [defaultProduceNextGenerationRef]
    rw [Heap.foldl_write_mem_ne]
    · rw [Heap.allocList_mem_lt, Heap.allocList_mem_lt _ _ _ halt]
      omega
    · intro x hx
      have hge := Heap.allocList_fresh_le_addr _ _ _ hx
      omega
  · intro b hb
    simp only [defaultProduceNextGenerationRef] at hb
    have hge := Heap.allocList_fresh_le_addr _ _ _ hb
    have hf : h.fresh ≤ b := by omega
    exact ⟨hf, fun hmem => absurd (hwf b hmem) (by omega)⟩

/-- Evaluation of `default_strategy_no_aliasing` on the concrete
`demoHeap`/`demoRefModel`, instantiated at input cell 0 and at the first
offspring cell. -/
theorem default_strategy_no_aliasing_check :
    (∀ a ∈ demoRefModel.population, a < demoHeap.fresh) ∧
    (defaultProduceNextGenerationRef demoCallbacks demoHeap demoRefModel).1.mem 0
      = demoHeap.mem 0 ∧
    (demoHeap.fresh ≤ 4 ∧ 4 ∉ demoRefModel.population) :=
  ⟨by decide,
    (default_strategy_no_aliasing demoCallbacks demoHeap demoRefModel (by decide)).1
      0 (by decide),
    (default_strategy_no_aliasing demoCallbacks demoHeap demoRefModel (by decide)).2
      4 (by decide)⟩

end Terrarium
